import Mathlib

/-!
Verification of the QC Inspector core of the gemvision backend.

The definitions below are a shallow embedding of
`backend/services/qc_inspector_service.py` and the rework-job handling in
`backend/routers/qc_inspector.py`.  Python floats are modelled as exact
rationals (ℚ); `round(x, 2)` is modelled as round-half-to-even to two
decimal places, which is Python's rounding rule on exact values.  Calls to
`random.randint` / `random.uniform` / `random.random` / `random.choice` and
`uuid` are modelled by explicit draw environments: a structure carries one
field per random draw the Python code makes, and a well-formedness
predicate records the range guaranteed by the corresponding `random`
primitive.  Database rows mutated by the rework endpoints are modelled as a
state record threaded through the handler.
-/

section QCInspector

attribute [local semireducible] Rat.mul Rat.add Rat.sub Rat.inv

/-- Round-half-to-even of a rational to an integer, written with integer
numerator/denominator arithmetic (`f` is the floor, `r` the remainder of
`q.num` by `q.den`).  This is the rounding rule Python's built-in `round`
applies. -/
def roundHalfEven (q : ℚ) : Int :=
  if 2 * (q.num - q.num / (q.den : Int) * (q.den : Int)) < (q.den : Int) then
    q.num / (q.den : Int)
  else if (q.den : Int) < 2 * (q.num - q.num / (q.den : Int) * (q.den : Int)) then
    q.num / (q.den : Int) + 1
  else if q.num / (q.den : Int) % 2 = 0 then q.num / (q.den : Int)
  else q.num / (q.den : Int) + 1

/-- Python's `round(x, 2)` on the exact rational value of `x`: round to
two decimal places, ties to even.  CPython rounds the binary64 value of
`x`, which agrees with this except when the product that produced `x`
lands within one double-ulp of a two-decimal boundary; the claims stated
through `round2` are insensitive to that margin.  The one tie-sensitive
computation of the spec (the 0.95 × 0.90 scenario) is modelled under
binary64 arithmetic separately, by `pyRound2Float` below. -/
def round2 (q : ℚ) : ℚ := (roundHalfEven (q * 100) : ℚ) / 100

theorem roundHalfEven_floor (q : ℚ) : q.num / (q.den : Int) = ⌊q⌋ :=
  Rat.floor_def.symm

theorem le_roundHalfEven (q : ℚ) (n : Int) (h : (n : ℚ) ≤ q) :
    n ≤ roundHalfEven q := by
  unfold roundHalfEven
  rw [roundHalfEven_floor]
  have hf : n ≤ ⌊q⌋ := Int.le_floor.mpr h
  split_ifs <;> omega

theorem roundHalfEven_le (q : ℚ) (n : Int) (h : q ≤ (n : ℚ)) :
    roundHalfEven q ≤ n := by
  unfold roundHalfEven
  rw [roundHalfEven_floor]
  have hf : ⌊q⌋ ≤ n := by
    have h2 := Int.floor_le_floor h
    simpa using h2
  rcases lt_or_eq_of_le hf with hlt | heq
  · split_ifs <;> omega
  · have hq : q = (n : ℚ) := by
      have h1 : (n : ℚ) ≤ q := by
        calc (n : ℚ) = ((⌊q⌋ : Int) : ℚ) := by rw [heq]
        _ ≤ q := Int.floor_le q
      exact le_antisymm h h1
    subst hq
    have hnum : ((n : ℚ)).num = n := Rat.num_intCast n
    have hden : ((n : ℚ)).den = 1 := Rat.den_intCast n
    rw [hnum, hden]
    split_ifs <;> omega

theorem round2_ge (q : ℚ) (n : Int) (h : (n : ℚ) / 100 ≤ q) :
    (n : ℚ) / 100 ≤ round2 q := by
  unfold round2
  have hle : (n : ℚ) ≤ q * 100 := by linarith
  have := le_roundHalfEven (q * 100) n hle
  have hc : (n : ℚ) ≤ ((roundHalfEven (q * 100) : Int) : ℚ) := by
    exact_mod_cast this
  linarith

theorem round2_le (q : ℚ) (n : Int) (h : q ≤ (n : ℚ) / 100) :
    round2 q ≤ (n : ℚ) / 100 := by
  unfold round2
  have hle : q * 100 ≤ (n : ℚ) := by linarith
  have := roundHalfEven_le (q * 100) n hle
  have hc : ((roundHalfEven (q * 100) : Int) : ℚ) ≤ (n : ℚ) := by
    exact_mod_cast this
  linarith

/-- Severity levels of a defect (`SEVERITY_LEVELS` in the service). -/
inductive Severity
  | low
  | medium
  | high
deriving DecidableEq, Repr, Inhabited

/-- The three file types `inspect_file` distinguishes. -/
inductive FileType
  | image
  | cad
  | pdf
deriving DecidableEq, Repr, Inhabited

/-- Overall inspection status derived from the filtered defect list. -/
inductive InspectionStatus
  | passed
  | passed_with_notes
  | review
  | failed
deriving DecidableEq, Repr, Inhabited

/-- Axis-aligned bounding box in source-image pixel coordinates. -/
structure BBox where
  x : Int
  y : Int
  width : Int
  height : Int
deriving DecidableEq, Repr, Inhabited

/-- One detected defect, as assembled by the detector functions. -/
structure Defect where
  id : String
  type : String
  label : String
  bbox : BBox
  confidence : ℚ
  severity : Severity
  description : String
  adjusted_confidence : Bool := false
deriving DecidableEq, Repr, Inhabited

/-- `DEFECT_TYPES` from the service class. -/
def DEFECT_TYPES : List String :=
  ["scratch", "stone_misalignment", "surface_discoloration", "prong_damage",
   "polish_defect", "casting_porosity", "size_deviation", "engraving_error"]

/-- `_get_defect_description`: fixed mapping from defect type to text. -/
def getDefectDescription (defect_type : String) : String :=
  if defect_type = "scratch" then "Surface scratch detected on metal finish"
  else if defect_type = "stone_misalignment" then
    "Stone appears misaligned or loose in setting"
  else if defect_type = "surface_discoloration" then
    "Discoloration or tarnish detected on surface"
  else if defect_type = "prong_damage" then "Prong appears damaged or bent"
  else if defect_type = "polish_defect" then
    "Inconsistent polish or surface finish"
  else if defect_type = "casting_porosity" then
    "Porosity or air pockets in casting"
  else if defect_type = "size_deviation" then
    "Dimension appears outside tolerance"
  else if defect_type = "engraving_error" then
    "Engraving appears incorrect or damaged"
  else "Defect detected"

/-- Character-level model of Python's `str.title()` applied after
`replace("_", " ")`: a letter that follows a non-letter is uppercased,
a letter that follows a letter is lowercased. -/
def pyTitleAux : List Char → Bool → List Char
  | [], _ => []
  | c :: rest, prevAlpha =>
    (if prevAlpha then c.toLower else c.toUpper) :: pyTitleAux rest c.isAlpha

/-- `defect_type.replace("_", " ").title()` — the display label. -/
def defectLabel (defect_type : String) : String :=
  String.mk (pyTitleAux (defect_type.toList.map fun c =>
    if c = '_' then ' ' else c) false)

/-- The weighted category table of `_analyze_image_for_defects`. -/
def defect_types_weighted : List (String × ℚ) :=
  [("scratch", 25/100), ("stone_misalignment", 20/100),
   ("surface_discoloration", 15/100), ("prong_damage", 15/100),
   ("polish_defect", 15/100), ("casting_porosity", 10/100)]

/-- The cumulative-probability loop choosing a defect type from a draw
`r` of `random.random()`; defaults to `"scratch"` when no bucket matched. -/
def chooseWeighted (r : ℚ) (cumulative : ℚ) : List (String × ℚ) → String
  | [] => "scratch"
  | (dtype, prob) :: rest =>
    if r < cumulative + prob then dtype else chooseWeighted r (cumulative + prob) rest

/-- Defect-type choice of the heuristic image detector. -/
def chooseDefectType (r : ℚ) : String := chooseWeighted r 0 defect_types_weighted

/-- `settings.qc_confidence_threshold` default from `backend/app/config.py`. -/
def qc_confidence_threshold : ℚ := 7/10

/-- `settings.qc_mode` default from `backend/app/config.py`. -/
def qc_mode : String := "simulated"

/-- Random draws consumed by one loop iteration of
`_analyze_image_for_defects`.  `jx jy` model `random.randint(-10, 10)`,
`jw jh` model `random.randint(-5, 5)` (contour branch); `rx ry rw rh` model
the `random.randint` position/size draws of the fallback branch; `tr` models
`random.random()` for the weighted type choice; `c1` models
`random.uniform(0.93, 0.97)` and `c2` the conditional re-draw
`random.uniform(0.94, 0.98)`; `did` models the `uuid` id. -/
structure HeurDraw where
  jx : Int
  jy : Int
  jw : Int
  jh : Int
  rx : Int
  ry : Int
  rw : Int
  rh : Int
  tr : ℚ
  c1 : ℚ
  c2 : ℚ
  did : String
deriving DecidableEq, Repr, Inhabited

/-- Ranges guaranteed by the `random` primitives for one `HeurDraw`
(`randint` is inclusive on both ends; Python `int(width * 0.2)` etc. is
modelled as exact floor division). -/
def heurDrawWF (W H : Int) (d : HeurDraw) : Prop :=
  -10 ≤ d.jx ∧ d.jx ≤ 10 ∧ -10 ≤ d.jy ∧ d.jy ≤ 10 ∧
  -5 ≤ d.jw ∧ d.jw ≤ 5 ∧ -5 ≤ d.jh ∧ d.jh ≤ 5 ∧
  W / 5 ≤ d.rx ∧ d.rx ≤ W * 4 / 5 ∧ H / 5 ≤ d.ry ∧ d.ry ≤ H * 4 / 5 ∧
  W / 20 ≤ d.rw ∧ d.rw ≤ W * 3 / 20 ∧ H / 20 ≤ d.rh ∧ d.rh ≤ H * 3 / 20 ∧
  0 ≤ d.tr ∧ d.tr < 1 ∧
  93/100 ≤ d.c1 ∧ d.c1 ≤ 97/100 ∧ 94/100 ≤ d.c2 ∧ d.c2 ≤ 98/100

instance (W H : Int) (d : HeurDraw) : Decidable (heurDrawWF W H d) := by
  unfold heurDrawWF
  infer_instance

/-- Pre-clamp box of loop iteration `i` of `_analyze_image_for_defects`:
contour `i`'s rectangle with jitter when `i < len(potential_defects)`,
otherwise the random fallback position/size.  The contour rectangles
(`potential_defects`, already area-filtered and sorted by the Python code)
come from OpenCV and are supplied as an input list. -/
def heuristicRawBox (pot : List (Int × Int × Int × Int)) (i : Nat)
    (d : HeurDraw) : Int × Int × Int × Int :=
  match pot[i]? with
  | some (px, py, pw, ph) =>
    (px + d.jx, py + d.jy, max 20 (pw + d.jw), max 20 (ph + d.jh))
  | none => (d.rx, d.ry, d.rw, d.rh)

/-- The local `confidence` variable of the heuristic loop: the base draw
`uniform(0.93, 0.97)`, overwritten by `uniform(0.94, 0.98)` when the box
area exceeds 2% of the image area. -/
def heurConfidence (W H w h : Int) (d : HeurDraw) : ℚ :=
  if ((w * h : Int) : ℚ) > ((W * H : Int) : ℚ) * (2/100) then d.c2 else d.c1

/-- One defect assembled by `_analyze_image_for_defects` (loop body,
lines 80–145 of the service): box selection, weighted type choice,
confidence band with area boost, severity from confidence/area, and the
clamped bbox written into the defect dict. -/
def heuristicDefect (W H : Int) (pot : List (Int × Int × Int × Int))
    (i : Nat) (d : HeurDraw) : Defect :=
  match heuristicRawBox pot i d with
  | (x, y, w, h) =>
    { id := d.did
      type := chooseDefectType d.tr
      label := defectLabel (chooseDefectType d.tr)
      bbox :=
        { x := max 0 (min x (W - w))
          y := max 0 (min y (H - h))
          width := min w W
          height := min h H }
      confidence := round2 (heurConfidence W H w h d)
      severity :=
        if heurConfidence W H w h d > 88/100
            ∨ ((w * h : Int) : ℚ) > ((W * H : Int) : ℚ) * (3/100) then
          Severity.high
        else if heurConfidence W H w h d > 78/100 then Severity.medium
        else Severity.low
      description := getDefectDescription (chooseDefectType d.tr)
      adjusted_confidence := false }

/-- `_analyze_image_for_defects` as a function of its random draws: the
number of defects `n` models `random.randint(2, 4)` and `draws` the
per-iteration randomness.  Image decoding, grayscale conversion, Canny
edge detection and contour extraction are external OpenCV effects whose
result is the `pot` input list. -/
def analyzeImageForDefects (W H : Int) (pot : List (Int × Int × Int × Int))
    (n : Nat) (draws : List HeurDraw) : List Defect :=
  ((List.range n).zip draws).map fun p => heuristicDefect W H pot p.1 p.2

/-- Random draws consumed by one loop iteration of
`_generate_simulated_defects`: position draws `x y`, size draws `w h`
(`random.randint`), type index `ti` (`random.choice(DEFECT_TYPES)`),
confidence `c` (`random.uniform(0.75, 0.95)`), and the `uuid` id. -/
structure SimDraw where
  x : Int
  y : Int
  w : Int
  h : Int
  ti : Nat
  c : ℚ
  did : String
deriving DecidableEq, Repr, Inhabited

/-- Ranges guaranteed by the `random` primitives for one `SimDraw`. -/
def simDrawWF (W H : Int) (d : SimDraw) : Prop :=
  W / 5 ≤ d.x ∧ d.x ≤ W * 4 / 5 ∧ H / 5 ≤ d.y ∧ d.y ≤ H * 4 / 5 ∧
  W / 20 ≤ d.w ∧ d.w ≤ W * 3 / 20 ∧ H / 20 ≤ d.h ∧ d.h ≤ H * 3 / 20 ∧
  d.ti < 8 ∧ 75/100 ≤ d.c ∧ d.c ≤ 95/100

instance (W H : Int) (d : SimDraw) : Decidable (simDrawWF W H d) := by
  unfold simDrawWF
  infer_instance

/-- One defect assembled by the `_generate_simulated_defects` loop body
(lines 172–210 of the service). -/
def simDefect (d : SimDraw) : Defect :=
  { id := d.did
    type := DEFECT_TYPES.getD d.ti "scratch"
    label := defectLabel (DEFECT_TYPES.getD d.ti "scratch")
    bbox :=
      { x := max 0 (d.x - d.w / 2)
        y := max 0 (d.y - d.h / 2)
        width := d.w
        height := d.h }
    confidence := round2 d.c
    severity :=
      if d.c > 88/100 then Severity.high
      else if d.c > 78/100 then Severity.medium
      else Severity.low
    description := getDefectDescription (DEFECT_TYPES.getD d.ti "scratch")
    adjusted_confidence := false }

/-- `_generate_simulated_defects` as a function of its random draws.  When
the caller passes `num_defects=None` the Python code draws
`n = random.randint(1, 3)`; `n` here is that (or the explicit) count. -/
def generate_simulated_defects (n : Nat) (draws : List SimDraw) : List Defect :=
  (draws.take n).map simDefect

/-- Confidence multiplier chosen in `inspect_file` (lines 347–354):
`0.75` whenever no CAD file accompanies the upload, else `0.85` for PDF,
`0.90` for image, `1.0` otherwise (CAD). -/
def confidenceMultiplier (file_type : FileType) (has_cad_file : Bool) : ℚ :=
  if has_cad_file = false then 3/4
  else if file_type = FileType.pdf then 17/20
  else if file_type = FileType.image then 9/10
  else 1

/-- Per-defect confidence adjustment of `inspect_file` (lines 357–359). -/
def adjustDefect (m : ℚ) (d : Defect) : Defect :=
  { d with
    confidence := round2 (d.confidence * m)
    adjusted_confidence := decide (m < 1) }

/-- Status derivation of `inspect_file` (lines 368–380). -/
def deriveStatus (defects : List Defect) : InspectionStatus :=
  if defects.isEmpty then InspectionStatus.passed
  else if defects.any fun d => decide (d.severity = Severity.high) then
    InspectionStatus.failed
  else if defects.any fun d => decide (d.severity = Severity.medium) then
    InspectionStatus.review
  else InspectionStatus.passed_with_notes

/-- Recommendation text fixed per status (same if-chain). -/
def recommendationFor (status : InspectionStatus) : String :=
  match status with
  | InspectionStatus.passed => "No defects detected. Item passes QC."
  | InspectionStatus.failed => "Critical defects detected. Send for rework."
  | InspectionStatus.review =>
    "Moderate defects detected. Manual review recommended."
  | InspectionStatus.passed_with_notes =>
    "Minor defects detected. Acceptable but document findings."

/-- `_get_confidence_note`. -/
def getConfidenceNote (file_type : FileType) (has_cad_file : Bool) : String :=
  if file_type = FileType.cad ∧ has_cad_file = true then
    "High confidence: CAD file analysis provides precise measurements."
  else if file_type = FileType.image ∧ has_cad_file = false then
    "Reduced confidence: Image-only analysis. CAD file recommended for better accuracy."
  else if file_type = FileType.pdf ∧ has_cad_file = false then
    "Moderate confidence: PDF analysis. CAD file recommended for precise defect detection."
  else if file_type = FileType.image then
    "Good confidence: Image analysis with reference data."
  else "Analysis completed with available data."

/-- The inspection result dict assembled by `inspect_file`.  The
`inspection_id` (a uuid) and the pixel-statistics presentation fields
(`image_analysis`, `requires_reshoot`, `lighting_warning`) depend on
external uuid/PIL/numpy effects and are not modelled; no claim refers to
them. -/
structure InspectionReport where
  status : InspectionStatus
  recommendation : String
  defects : List Defect
  defect_count : Nat
  detection_mode : String
  confidence_threshold : ℚ
  file_type : FileType
  has_cad_file : Bool
  confidence_note : String
deriving Repr

/-- Lines 347–397 of `inspect_file`: the multiplier choice, the one-shot
confidence adjustment, the threshold filter, the status derivation and the
report assembly.  `raw_defects` is the output of the detector selected on
lines 320–345 (`analyzeImageForDefects` for the simulated image path,
`generate_simulated_defects` for the simulated CAD/PDF path and for the ML
placeholder, which falls back to the same generator). -/
def inspect_file (raw_defects : List Defect) (detection_mode : String)
    (file_type : FileType) (has_cad_file : Bool)
    (confidence_threshold : ℚ) : InspectionReport :=
  let m := confidenceMultiplier file_type has_cad_file
  let adjusted := raw_defects.map (adjustDefect m)
  let defects := adjusted.filter fun d => decide (confidence_threshold ≤ d.confidence)
  { status := deriveStatus defects
    recommendation := recommendationFor (deriveStatus defects)
    defects := defects
    defect_count := defects.length
    detection_mode := detection_mode
    confidence_threshold := confidence_threshold
    file_type := file_type
    has_cad_file := has_cad_file
    confidence_note := getConfidenceNote file_type has_cad_file }

/-- One audit-trail entry of a rework job.  The creation event written by
the service has no `operator` key, the transition events written by the
router do; the field is therefore optional. -/
structure LifecycleEvent where
  timestamp : String
  status : String
  operator : Option String
  action : String
  notes : String
deriving DecidableEq, Repr, Inhabited

/-- The defect subset selected for rework by
`QCInspectorService.create_rework_job`. -/
def selectReworkDefects (inspection_defects : List Defect)
    (selected_defects : List String) : List Defect :=
  inspection_defects.filter fun d => selected_defects.contains d.id

/-- The initial lifecycle list written by
`QCInspectorService.create_rework_job` (one "created" event). -/
def initialLifecycle (created_at : String) : List LifecycleEvent :=
  [{ timestamp := created_at
     status := "pending"
     operator := none
     action := "created"
     notes := "Rework job created from QC inspection" }]

/-- Severity ranking used by the router's `max(..., key=...)` aggregation:
`{"low": 1, "medium": 2, "high": 3}.get(x, 0)`. -/
def severityRank (s : Severity) : Nat :=
  match s with
  | Severity.low => 1
  | Severity.medium => 2
  | Severity.high => 3

/-- Python's `max(iterable, key=severityRank)` over a nonempty list:
a later element replaces the current maximum only when strictly greater,
so ties keep the earliest element.  Returns `none` on the empty list
(where Python raises `ValueError`). -/
def maxSeverity : List Severity → Option Severity
  | [] => none
  | s :: rest =>
    some (rest.foldl (fun acc x => if severityRank acc < severityRank x then x else acc) s)

/-- First-occurrence deduplication, modelling the `set(...)` of defect
types joined into the `defect_type` column (CPython set iteration order is
hash dependent; first-occurrence order is the representative chosen
here). -/
def dedupFirst (seen : List String) : List String → List String
  | [] => []
  | x :: xs =>
    if seen.contains x then dedupFirst seen xs
    else x :: dedupFirst (x :: seen) xs

/-- `", ".join(...)`. -/
def commaJoin : List String → String
  | [] => ""
  | [x] => x
  | x :: xs => x ++ ", " ++ commaJoin xs

/-- The `ReworkJob` database row as the rework endpoints see it: the
status/timestamp/operator columns mutated by `update_rework_job`, the
aggregate columns written at creation, and the JSON `lifecycle_events`
column. -/
structure ReworkJob where
  defect_type : String
  defect_severity : Option Severity
  defect_description : String
  assigned_to_station : String
  priority : String
  status : String
  assigned_operator : Option String
  verified_by : Option String
  assigned_at : Option String
  completed_at : Option String
  verified_at : Option String
  lifecycle_events : List LifecycleEvent
deriving DecidableEq, Repr, Inhabited

/-- Creation of a rework job: `QCInspectorService.create_rework_job`
builds the defect subset and the initial lifecycle, and the router
(`POST /rework` or a `rework` triage decision) writes the database row
with status `pending` and all timestamps unset. -/
def create_rework_job (inspection_defects : List Defect)
    (selected_defects : List String) (operator_notes priority
    assigned_station created_at : String) : ReworkJob :=
  let defects := selectReworkDefects inspection_defects selected_defects
  { defect_type := commaJoin (dedupFirst [] (defects.map fun d => d.type))
    defect_severity := maxSeverity (defects.map fun d => d.severity)
    defect_description := operator_notes
    assigned_to_station := assigned_station
    priority := priority
    status := "pending"
    assigned_operator := none
    verified_by := none
    assigned_at := none
    completed_at := none
    verified_at := none
    lifecycle_events := initialLifecycle created_at }

/-- Body of `PATCH /rework/{id}` (`UpdateReworkRequest`): the target
status, the requesting operator and free-text notes.  The `status` field
is a plain string — the pydantic model carries the enumeration
"pending, in_progress, completed, verified" only in its description and
performs no value validation. -/
structure UpdateReworkRequest where
  status : String
  operator : String := ""
  notes : String := ""
deriving DecidableEq, Repr, Inhabited

/-- `update_rework_job` (router lines 384–409) on a found job: set the
status to the requested value, set each milestone timestamp the first time
its status is requested, and append one lifecycle event recording the
transition.  `now` models `datetime.utcnow().isoformat()`. -/
def update_rework_job (now : String) (req : UpdateReworkRequest)
    (rework : ReworkJob) : ReworkJob :=
  let old_status := rework.status
  let r1 : ReworkJob := { rework with status := req.status }
  let r2 : ReworkJob :=
    if req.status = "in_progress" ∧ r1.assigned_at = none then
      { r1 with assigned_at := some now, assigned_operator := some req.operator }
    else if req.status = "completed" ∧ r1.completed_at = none then
      { r1 with completed_at := some now }
    else if req.status = "verified" ∧ r1.verified_at = none then
      { r1 with verified_at := some now, verified_by := some req.operator }
    else r1
  { r2 with
    lifecycle_events := r2.lifecycle_events ++
      [{ timestamp := now
         status := req.status
         operator := some req.operator
         action := "Status changed from " ++ old_status ++ " to " ++ req.status
         notes := req.notes }] }

/-- `N` successive `PATCH /rework/{id}` calls on the same job, each with
its own timestamp and request body. -/
def advance_rework_many (job : ReworkJob)
    (calls : List (String × UpdateReworkRequest)) : ReworkJob :=
  calls.foldl (fun j c => update_rework_job c.1 c.2 j) job

/-- Position of a status in the reference order
`pending → in_progress → completed → verified` of the spec's rework state
machine; `none` for a string outside the enumeration. -/
def reworkStatusRank (s : String) : Option Nat :=
  if s = "pending" then some 0
  else if s = "in_progress" then some 1
  else if s = "completed" then some 2
  else if s = "verified" then some 3
  else none

/-- The status derivation seen purely as a function of the severity
multiset: used to state that `deriveStatus` depends on nothing else. -/
def statusOfSeverities (sevs : List Severity) : InspectionStatus :=
  if sevs.isEmpty then InspectionStatus.passed
  else if sevs.any fun s => decide (s = Severity.high) then InspectionStatus.failed
  else if sevs.any fun s => decide (s = Severity.medium) then InspectionStatus.review
  else InspectionStatus.passed_with_notes

theorem deriveStatus_eq_statusOfSeverities (l : List Defect) :
    deriveStatus l = statusOfSeverities (l.map Defect.severity) := by
  unfold deriveStatus statusOfSeverities
  cases l <;> simp [List.any_map, Function.comp]

theorem deriveStatus_passed_iff (l : List Defect) :
    deriveStatus l = InspectionStatus.passed ↔ l = [] := by
  unfold deriveStatus
  cases l with
  | nil => simp
  | cons a as => split_ifs <;> simp_all

theorem deriveStatus_failed_iff (l : List Defect) :
    deriveStatus l = InspectionStatus.failed ↔
      ∃ d ∈ l, d.severity = Severity.high := by
  unfold deriveStatus
  cases l with
  | nil => simp
  | cons a as =>
    split_ifs with h1 h2 <;>
      simp_all [List.any_eq_true, List.isEmpty_iff]

theorem deriveStatus_review_iff (l : List Defect) :
    deriveStatus l = InspectionStatus.review ↔
      (¬ ∃ d ∈ l, d.severity = Severity.high)
        ∧ ∃ d ∈ l, d.severity = Severity.medium := by
  unfold deriveStatus
  cases l with
  | nil => simp
  | cons a as =>
    split_ifs with h1 h2 h3 <;>
      simp_all [List.any_eq_true, List.isEmpty_iff]

theorem deriveStatus_notes_iff (l : List Defect) :
    deriveStatus l = InspectionStatus.passed_with_notes ↔
      l ≠ [] ∧ (¬ ∃ d ∈ l, d.severity = Severity.high)
        ∧ ¬ ∃ d ∈ l, d.severity = Severity.medium := by
  unfold deriveStatus
  cases l with
  | nil => simp
  | cons a as =>
    split_ifs with h1 h2 h3 <;>
      simp_all [List.any_eq_true, List.isEmpty_iff]

theorem deriveStatus_of_all_high (l : List Defect)
    (h : ∀ d ∈ l, d.severity = Severity.high) :
    deriveStatus l = InspectionStatus.passed
      ∨ deriveStatus l = InspectionStatus.failed := by
  cases l with
  | nil => left; rfl
  | cons a as =>
    right
    have ha : a.severity = Severity.high := h a (by simp)
    simp [deriveStatus, List.any_cons, ha]

/-- The clamped box written by `_analyze_image_for_defects` stays inside
`[0, W]` whatever the pre-clamp position, as long as the pre-clamp size is
nonnegative. -/
theorem clamp_within (W x w : Int) (hW : 0 ≤ W) (hw : 0 ≤ w) :
    0 ≤ max 0 (min x (W - w)) ∧ max 0 (min x (W - w)) + min w W ≤ W := by
  constructor
  · exact le_max_left 0 _
  · simp only [max_def, min_def]
    split_ifs <;> omega

theorem update_rework_job_len (now : String) (req : UpdateReworkRequest)
    (j : ReworkJob) :
    (update_rework_job now req j).lifecycle_events.length
      = j.lifecycle_events.length + 1 := by
  simp only [update_rework_job]
  split_ifs <;> simp

theorem advance_rework_many_len (calls : List (String × UpdateReworkRequest))
    (j : ReworkJob) :
    (advance_rework_many j calls).lifecycle_events.length
      = j.lifecycle_events.length + calls.length := by
  induction calls generalizing j with
  | nil => rfl
  | cons c cs ih =>
    have h := ih (update_rework_job c.1 c.2 j)
    simp only [advance_rework_many, List.foldl_cons, List.length_cons] at h ⊢
    rw [h, update_rework_job_len]
    omega

/-- A concrete defect value used to instantiate witnesses. -/
def sampleDefect (c : ℚ) (sev : Severity) : Defect :=
  { id := "d0"
    type := "scratch"
    label := defectLabel "scratch"
    bbox := { x := 10, y := 10, width := 50, height := 50 }
    confidence := c
    severity := sev
    description := getDefectDescription "scratch"
    adjusted_confidence := false }

/-- C1: exactly one confidence multiplier is chosen by precedence —
`0.75` whenever `has_cad_file` is false, regardless of file type; else
`0.85` for pdf, `0.90` for image and `1.0` for cad — and every defect of
the returned report is a raw defect whose confidence was set to
`round(confidence * multiplier, 2)` exactly once (the report's defect list
is the adjusted raw list, threshold-filtered afterwards). -/
theorem C1_multiplier_precedence (ft : FileType) (raw : List Defect)
    (dm : String) (th : ℚ) (hc : Bool) :
    confidenceMultiplier ft false = 3/4
  ∧ confidenceMultiplier FileType.pdf true = 17/20
  ∧ confidenceMultiplier FileType.image true = 9/10
  ∧ confidenceMultiplier FileType.cad true = 1
  ∧ (inspect_file raw dm ft hc th).defects
      = (raw.map (adjustDefect (confidenceMultiplier ft hc))).filter
          (fun d => decide (th ≤ d.confidence))
  ∧ ∀ d : Defect, (adjustDefect (confidenceMultiplier ft hc) d).confidence
      = round2 (d.confidence * confidenceMultiplier ft hc) := by
  refine ⟨?_, rfl, rfl, rfl, rfl, fun d => rfl⟩
  simp [confidenceMultiplier]

/-- C2: the report status is a pure function of the filtered defect list's
severities with strict precedence: `passed` iff no defect remains,
`failed` iff some remaining defect is high, `review` iff none is high and
some is medium, `passed_with_notes` iff defects remain and none is high or
medium. -/
theorem C2_status_derivation (raw : List Defect) (dm : String)
    (ft : FileType) (hc : Bool) (th : ℚ) :
    ((inspect_file raw dm ft hc th).status = InspectionStatus.passed
      ↔ (inspect_file raw dm ft hc th).defects = [])
  ∧ ((inspect_file raw dm ft hc th).status = InspectionStatus.failed
      ↔ ∃ d ∈ (inspect_file raw dm ft hc th).defects,
          d.severity = Severity.high)
  ∧ ((inspect_file raw dm ft hc th).status = InspectionStatus.review
      ↔ (¬ ∃ d ∈ (inspect_file raw dm ft hc th).defects,
            d.severity = Severity.high)
        ∧ ∃ d ∈ (inspect_file raw dm ft hc th).defects,
            d.severity = Severity.medium)
  ∧ ((inspect_file raw dm ft hc th).status = InspectionStatus.passed_with_notes
      ↔ (inspect_file raw dm ft hc th).defects ≠ []
        ∧ (¬ ∃ d ∈ (inspect_file raw dm ft hc th).defects,
              d.severity = Severity.high)
        ∧ ¬ ∃ d ∈ (inspect_file raw dm ft hc th).defects,
              d.severity = Severity.medium)
  ∧ (inspect_file raw dm ft hc th).status
      = statusOfSeverities
          ((inspect_file raw dm ft hc th).defects.map Defect.severity) := by
  refine ⟨deriveStatus_passed_iff _, deriveStatus_failed_iff _,
    deriveStatus_review_iff _, deriveStatus_notes_iff _,
    deriveStatus_eq_statusOfSeverities _⟩

/-- C3: every defect of a returned report has post-adjustment confidence
at least the configured threshold; the configured default is 0.7. -/
theorem C3_threshold_invariant (raw : List Defect) (dm : String)
    (ft : FileType) (hc : Bool) (th : ℚ) :
    (∀ d ∈ (inspect_file raw dm ft hc th).defects, th ≤ d.confidence)
  ∧ qc_confidence_threshold = 7/10 := by
  refine ⟨?_, rfl⟩
  intro d hd
  simp only [inspect_file] at hd
  exact of_decide_eq_true (List.mem_filter.mp hd).2

/-- Witness for C3 at a concrete inspection. -/
theorem C3_threshold_invariant_witness :
    (7 : ℚ)/10 ≤
      ((inspect_file [sampleDefect (95/100) Severity.high] "simulated"
          FileType.image true (7/10)).defects.getD 0 default).confidence :=
  (C3_threshold_invariant [sampleDefect (95/100) Severity.high] "simulated"
      FileType.image true (7/10)).1 _ (by decide)

/-- C4: after `N` status-update calls a rework job carries exactly `N + 1`
lifecycle events (the creation event plus one appended per call, whether
or not the status changed); `assigned_at`/`assigned_operator` are set on
the first transition into `in_progress` and no later call modifies
them. -/
theorem C4_lifecycle_audit (inspection_defects : List Defect)
    (selected : List String) (notes2 priority station created_at : String)
    (calls : List (String × UpdateReworkRequest))
    (j : ReworkJob) (t : String) (r : UpdateReworkRequest) :
    (advance_rework_many
        (create_rework_job inspection_defects selected notes2 priority
          station created_at) calls).lifecycle_events.length
      = calls.length + 1
  ∧ (j.assigned_at = none → r.status = "in_progress" →
      (update_rework_job t r j).assigned_at = some t
      ∧ (update_rework_job t r j).assigned_operator = some r.operator)
  ∧ (j.assigned_at ≠ none →
      (update_rework_job t r j).assigned_at = j.assigned_at
      ∧ (update_rework_job t r j).assigned_operator = j.assigned_operator) := by
  refine ⟨?_, ?_, ?_⟩
  · rw [advance_rework_many_len]
    simp [create_rework_job, initialLifecycle]
    omega
  · intro h1 h2
    simp [update_rework_job, h1, h2]
  · intro h1
    simp only [update_rework_job]
    split_ifs with hA hB hC <;> simp_all

/-- Witness for C4: two updates on a fresh job yield three lifecycle
events, and the first `in_progress` transition stamps the operator. -/
theorem C4_lifecycle_audit_witness :
    (advance_rework_many (create_rework_job [] [] "" "medium" "" "t0")
        [("t1", { status := "in_progress", operator := "alice" }),
         ("t2", { status := "in_progress", operator := "bob" })]).lifecycle_events.length = 3
  ∧ (update_rework_job "t1" { status := "in_progress", operator := "alice" }
        (create_rework_job [] [] "" "medium" "" "t0")).assigned_at = some "t1"
  ∧ (update_rework_job "t2" { status := "in_progress", operator := "bob" }
        (update_rework_job "t1" { status := "in_progress", operator := "alice" }
          (create_rework_job [] [] "" "medium" "" "t0"))).assigned_at
      = (update_rework_job "t1" { status := "in_progress", operator := "alice" }
          (create_rework_job [] [] "" "medium" "" "t0")).assigned_at := by
  have h1 := C4_lifecycle_audit [] [] "" "medium" "" "t0"
    [("t1", { status := "in_progress", operator := "alice" }),
     ("t2", { status := "in_progress", operator := "bob" })]
    (create_rework_job [] [] "" "medium" "" "t0") "t1"
    { status := "in_progress", operator := "alice" }
  have h2 := C4_lifecycle_audit [] [] "" "medium" "" "t0" []
    (update_rework_job "t1" { status := "in_progress", operator := "alice" }
      (create_rework_job [] [] "" "medium" "" "t0")) "t2"
    { status := "in_progress", operator := "bob" }
  exact ⟨h1.1, (h1.2.1 rfl rfl).1, (h2.2.2 (by decide)).1⟩

/-- C5: the code accepts a target status outside
{pending, in_progress, completed, verified} — the pydantic request model
only documents the enumeration and validates nothing — so the job is
mutated to the unrecognized status and an audit event is appended instead
of a `ValidationError` being raised. -/
theorem C5_unvalidated_status_accepted :
    (update_rework_job "2026-02-03T00:00:00"
        { status := "exploded", operator := "op1", notes := "" }
        (create_rework_job [] [] "" "medium" "" "t0")).status = "exploded"
  ∧ (update_rework_job "2026-02-03T00:00:00"
        { status := "exploded", operator := "op1", notes := "" }
        (create_rework_job [] [] "" "medium" "" "t0")).lifecycle_events.length = 2
  ∧ reworkStatusRank "exploded" = none := by
  refine ⟨rfl, ?_, rfl⟩
  rw [update_rework_job_len]
  rfl

/-- Counterexample to C6: a job advanced to `completed` (rank 2) moves
backward to `pending` (rank 0) on the next operator-supplied call. -/
theorem C6_counterexample :
    reworkStatusRank (advance_rework_many
        (create_rework_job [] [] "" "medium" "" "t0")
        [("t1", { status := "completed", operator := "op" })]).status = some 2
  ∧ reworkStatusRank (advance_rework_many
        (create_rework_job [] [] "" "medium" "" "t0")
        [("t1", { status := "completed", operator := "op" }),
         ("t2", { status := "pending", operator := "op" })]).status = some 0 := by
  exact ⟨rfl, rfl⟩

/-- C6 amended: `update_rework_job` imposes no monotonicity — it always
sets the job's status to exactly the operator-supplied target, so a target
earlier in the order moves the job backward. -/
theorem C6_amended_status_is_request (now : String)
    (req : UpdateReworkRequest) (j : ReworkJob) :
    (update_rework_job now req j).status = req.status := by
  simp only [update_rework_job]
  split_ifs <;> rfl

/-- Binary64 rounding on the binade [1/2, 1]: the doubles of that range
are exactly the rationals `k / 2^53` with `2^52 ≤ k ≤ 2^53`, so rounding a
real to the nearest double there is rounding `q * 2^53` to the nearest
integer with ties to even (the IEEE default).  Every float of the 0.95
scenario — 0.95, 0.90, their product, 0.85, 0.70 — lies in this binade,
which is all this model is used for. -/
def fl64half (q : ℚ) : ℚ := (roundHalfEven (q * 2 ^ 53) : ℚ) / 2 ^ 53

/-- Binary64 multiplication on the binade [1/2, 1]: the exact product,
rounded back to a double. -/
def flMul (a b : ℚ) : ℚ := fl64half (a * b)

/-- CPython's `round(x, 2)` on a binary64 `x` whose result lies in
[1/2, 1]: CPython returns the double nearest to the correctly rounded
two-decimal value of `x` (via `_Py_dg_dtoa`), i.e. the exact decimal
rounding `round2` re-rounded to binary64.  A double is never an exact
two-decimal half (its reduced denominator is a power of two, a half-cent
needs a factor 25), so the tie clause of `round2` can never fire on a
double input. -/
def pyRound2Float (x : ℚ) : ℚ := fl64half (round2 x)

/-- The double written `0.95`, i.e. `8556839292003942 / 2^53`
(≈ 0.94999999999999995559…) — a legal `uniform(0.93, 0.97)` draw. -/
def float95 : ℚ := fl64half (95/100)

/-- The double written `0.90`, the image confidence multiplier. -/
def float90 : ℚ := fl64half (9/10)

/-- The double written `0.85`. -/
def float85 : ℚ := fl64half (85/100)

/-- The double written `0.7`, the configured confidence threshold. -/
def float70 : ℚ := fl64half (7/10)

/-- Per-defect confidence adjustment (service line 358) carried out in
binary64, as CPython executes it: the stored double times the multiplier
double, rounded to a double, then `round(·, 2)`. -/
def adjustDefectFloat (m : ℚ) (d : Defect) : Defect :=
  { d with
    confidence := pyRound2Float (flMul d.confidence m)
    adjusted_confidence := decide (m < 1) }

/-- The multiplier of lines 347–354 as the double the Python literal
denotes (0.75 and 1.0 are exact doubles; 0.85 and 0.90 are not). -/
def confidenceMultiplierFloat (file_type : FileType) (has_cad_file : Bool) : ℚ :=
  fl64half (confidenceMultiplier file_type has_cad_file)

/-- Lines 347–397 of `inspect_file` with the arithmetic carried out in
binary64: identical to `inspect_file` except that the confidence
adjustment multiplies and rounds doubles.  The threshold filter and the
status derivation involve no arithmetic, only comparisons, which are
exact on doubles-as-rationals.  Used for the one claim whose asserted
value sits within a double-ulp of a decimal rounding boundary. -/
def inspect_file_float (raw_defects : List Defect) (detection_mode : String)
    (file_type : FileType) (has_cad_file : Bool)
    (confidence_threshold : ℚ) : InspectionReport :=
  let m := confidenceMultiplierFloat file_type has_cad_file
  let adjusted := raw_defects.map (adjustDefectFloat m)
  let defects := adjusted.filter fun d => decide (confidence_threshold ≤ d.confidence)
  { status := deriveStatus defects
    recommendation := recommendationFor (deriveStatus defects)
    defects := defects
    defect_count := defects.length
    detection_mode := detection_mode
    confidence_threshold := confidence_threshold
    file_type := file_type
    has_cad_file := has_cad_file
    confidence_note := getConfidenceNote file_type has_cad_file }

/-- The raw defect the heuristic detector emits when its confidence draw
is the double 0.95: line 140 stores `round(0.95, 2)`, which is the double
0.95 again; 0.95 > 0.88 gives severity `high`; the bbox is a
fallback-branch box on a 1000×1000 image. -/
def heurDefect95 : Defect :=
  { id := "qc-d1"
    type := "scratch"
    label := defectLabel "scratch"
    bbox := { x := 250, y := 250, width := 100, height := 100 }
    confidence := pyRound2Float float95
    severity := Severity.high
    description := getDefectDescription "scratch"
    adjusted_confidence := false }

set_option maxRecDepth 8000 in
/-- Counterexample to C7: under the binary64 arithmetic the program runs
on, the double product `0.95 * 0.90` falls just below 0.855, so
`round(0.95 * 0.90, 2)` is the double 0.85 — the adjusted confidence is
never 0.855 as the claim states (nor could any `round(·, 2)` result carry
three decimals). -/
theorem C7_counterexample :
    heurDefect95.confidence = float95
  ∧ flMul float95 float90 < 855/1000
  ∧ ((inspect_file_float [heurDefect95] "simulated" FileType.image true
        float70).defects.map Defect.confidence) = [float85]
  ∧ ¬ (float85 = 855/1000) := by
  refine ⟨by decide, by decide, by decide, by decide⟩

set_option maxRecDepth 8000 in
/-- C7 amended: image input, `has_cad_file = true`, threshold 0.7,
simulated mode; the heuristic raw defect with confidence 0.95 is adjusted
by the 0.90 multiplier to the double 0.85 (`round(0.95 * 0.90, 2) = 0.85`
in CPython, the double product being ≈ 0.85499999999999998 < 0.855),
passes the 0.7 filter, is the report's single defect, and carries
`adjusted_confidence = true`. -/
theorem C7_amended_scenario :
    pyRound2Float (flMul float95 float90) = float85
  ∧ ((inspect_file_float [heurDefect95] "simulated" FileType.image true
        float70).defects.map fun d => (d.confidence, d.adjusted_confidence))
      = [(float85, true)]
  ∧ float70 ≤ float85
  ∧ (inspect_file_float [heurDefect95] "simulated" FileType.image true
        float70).defect_count = 1
  ∧ (inspect_file_float [heurDefect95] "simulated" FileType.image true
        float70).status = InspectionStatus.failed := by
  refine ⟨by decide, by decide, by decide, by decide, by decide⟩

/-- The severity rule exactly as C8 words it (thresholds 0.85 / 0.75),
for comparison against the rule the source implements. -/
def claimSimSeverity (c : ℚ) : Severity :=
  if c > 85/100 then Severity.high
  else if c > 75/100 then Severity.medium
  else Severity.low

/-- A reachable random environment of `_generate_simulated_defects` on a
1000×1000 canvas whose confidence draw is 0.87 (inside the uniform band
[0.75, 0.95]). -/
def simDraw87 : SimDraw :=
  { x := 300, y := 300, w := 100, h := 100, ti := 0, c := 87/100,
    did := "qc-d2" }

/-- Counterexample to C8: at confidence 0.87 the generator assigns
severity `medium` (its thresholds are >0.88 / >0.78), while the claim's
thresholds (>0.85 / >0.75) would require `high`. -/
theorem C8_counterexample :
    simDrawWF 1000 1000 simDraw87
  ∧ (generate_simulated_defects 1 [simDraw87]).map Defect.severity
      = [Severity.medium]
  ∧ claimSimSeverity (87/100) = Severity.high := by
  refine ⟨by decide, by decide, by decide⟩

/-- C8 amended: the simulated CAD/PDF generator emits exactly the drawn
number of defects (1–3 when drawn by `randint(1, 3)`), each stored
confidence lies in [0.70, 0.95] (in fact in [0.75, 0.95]), and severity is
derived from the raw confidence draw with thresholds >0.88 for `high` and
>0.78 for `medium`, else `low`. -/
theorem C8_amended_generator (W H : Int) (n : Nat) (draws : List SimDraw)
    (h1 : 1 ≤ n) (h3 : n ≤ 3) (hlen : n ≤ draws.length)
    (hWF : ∀ d ∈ draws, simDrawWF W H d) :
    (1 ≤ (generate_simulated_defects n draws).length
      ∧ (generate_simulated_defects n draws).length ≤ 3)
  ∧ (∀ d ∈ generate_simulated_defects n draws,
      7/10 ≤ d.confidence ∧ d.confidence ≤ 95/100)
  ∧ (∀ dr ∈ draws,
      ((simDefect dr).severity = Severity.high ↔ 88/100 < dr.c)
      ∧ ((simDefect dr).severity = Severity.medium
          ↔ (78/100 < dr.c ∧ dr.c ≤ 88/100))
      ∧ ((simDefect dr).severity = Severity.low ↔ dr.c ≤ 78/100)) := by
  refine ⟨?_, ?_, ?_⟩
  · have hlen2 : (generate_simulated_defects n draws).length = n := by
      simp [generate_simulated_defects]
      omega
    omega
  · intro d hd
    simp only [generate_simulated_defects, List.mem_map] at hd
    obtain ⟨dr, hdr, rfl⟩ := hd
    have hmem : dr ∈ draws := List.mem_of_mem_take hdr
    obtain ⟨-, -, -, -, -, -, -, -, -, hc1, hc2⟩ := hWF dr hmem
    constructor
    · have h70 : ((70 : Int) : ℚ) / 100 ≤ dr.c := by
        push_cast
        linarith
      have := round2_ge dr.c 70 h70
      have he : (7 : ℚ)/10 = ((70 : Int) : ℚ) / 100 := by norm_num
      rw [he]
      simpa [simDefect] using this
    · have h95 : dr.c ≤ ((95 : Int) : ℚ) / 100 := by
        push_cast
        linarith
      have := round2_le dr.c 95 h95
      have he : (95 : ℚ)/100 = ((95 : Int) : ℚ) / 100 := by norm_num
      rw [he]
      simpa [simDefect] using this
  · intro dr _
    simp only [simDefect]
    split_ifs with hA hB <;>
      refine ⟨?_, ?_, ?_⟩ <;> simp_all <;> linarith

/-- Witness for C8's amended theorem at a concrete draw. -/
theorem C8_amended_generator_witness :
    (7 : ℚ)/10 ≤
      ((generate_simulated_defects 1 [simDraw87]).getD 0 default).confidence
  ∧ ((simDefect simDraw87).severity = Severity.medium
      ↔ (78/100 < simDraw87.c ∧ simDraw87.c ≤ 88/100)) := by
  have h := C8_amended_generator 1000 1000 1 [simDraw87] (by decide)
    (by decide) (by decide) (by decide)
  exact ⟨(h.2.1 _ (by decide)).1, (h.2.2 simDraw87 (by decide)).2.1⟩

/-- The bound C9 asserts of a bbox relative to the image extents. -/
def bboxWithin (W H : Int) (b : BBox) : Prop :=
  0 ≤ b.x ∧ b.x + b.width ≤ W ∧ 0 ≤ b.y ∧ b.y + b.height ≤ H

/-- The pre-clamp size produced by the heuristic loop is nonnegative:
`max 20 …` in the contour branch, a `randint` draw bounded below by
`int(0.05 * dim) ≥ 0` in the fallback branch. -/
theorem heuristicRawBox_size_nonneg (W H : Int)
    (pot : List (Int × Int × Int × Int)) (i : Nat) (dr : HeurDraw)
    (hW : 0 ≤ W) (hH : 0 ≤ H) (hWF : heurDrawWF W H dr) :
    0 ≤ (heuristicRawBox pot i dr).2.2.1
      ∧ 0 ≤ (heuristicRawBox pot i dr).2.2.2 := by
  obtain ⟨-, -, -, -, -, -, -, -, -, -, -, -, hrw, -, hrh, -⟩ := hWF
  unfold heuristicRawBox
  cases hpot : pot[i]? with
  | some q =>
    rcases q with ⟨px, py, pw, ph⟩
    dsimp only
    constructor <;> exact le_trans (by norm_num) (le_max_left 20 _)
  | none =>
    dsimp only
    constructor <;> omega

/-- C9: every defect emitted by either detector variant has its bounding
box inside the image bounds. -/
theorem C9_bbox_within_bounds (W H : Int)
    (pot : List (Int × Int × Int × Int)) (n : Nat)
    (hdraws : List HeurDraw) (sn : Nat) (sdraws : List SimDraw)
    (hW : 0 ≤ W) (hH : 0 ≤ H)
    (hWF : ∀ d ∈ hdraws, heurDrawWF W H d)
    (sWF : ∀ d ∈ sdraws, simDrawWF W H d) :
    (∀ d ∈ analyzeImageForDefects W H pot n hdraws, bboxWithin W H d.bbox)
  ∧ (∀ d ∈ generate_simulated_defects sn sdraws, bboxWithin W H d.bbox) := by
  constructor
  · intro d hd
    simp only [analyzeImageForDefects, List.mem_map] at hd
    obtain ⟨p, hp, rfl⟩ := hd
    rcases p with ⟨i, dr⟩
    have hdrw : dr ∈ hdraws := (List.of_mem_zip hp).2
    have hsz := heuristicRawBox_size_nonneg W H pot i dr hW hH (hWF dr hdrw)
    rcases hbox : heuristicRawBox pot i dr with ⟨x, y, w, h⟩
    rw [hbox] at hsz
    obtain ⟨hw0, hh0⟩ := hsz
    have hx := clamp_within W x w hW hw0
    have hy := clamp_within H y h hH hh0
    simp only [heuristicDefect, hbox, bboxWithin]
    exact ⟨hx.1, hx.2, hy.1, hy.2⟩
  · intro d hd
    simp only [generate_simulated_defects, List.mem_map] at hd
    obtain ⟨dr, hdr, rfl⟩ := hd
    have hmem : dr ∈ sdraws := List.mem_of_mem_take hdr
    obtain ⟨hx1, hx2, hy1, hy2, hw1, hw2, hh1, hh2, -, -, -⟩ := sWF dr hmem
    simp only [simDefect, bboxWithin]
    refine ⟨le_max_left 0 _, ?_, le_max_left 0 _, ?_⟩ <;>
      · simp only [max_def]
        split_ifs <;> omega

/-- A reachable heuristic-detector environment on a 1000×800 image with
one usable contour rectangle. -/
def heurDrawC9 : HeurDraw :=
  { jx := 5, jy := -3, jw := 2, jh := -1, rx := 300, ry := 200, rw := 80,
    rh := 60, tr := 30/100, c1 := 94/100, c2 := 95/100, did := "qc-d3" }

/-- A reachable simulated-generator environment on a 1000×800 canvas. -/
def simDrawC9 : SimDraw :=
  { x := 400, y := 300, w := 120, h := 70, ti := 3, c := 80/100,
    did := "qc-d4" }

/-- Witness for C9 at concrete environments (one defect from each
detector variant). -/
theorem C9_bbox_within_bounds_witness :
    bboxWithin 1000 800
      (((analyzeImageForDefects 1000 800 [(100, 120, 60, 40)] 1
          [heurDrawC9]).getD 0 default).bbox)
  ∧ bboxWithin 1000 800
      (((generate_simulated_defects 1 [simDrawC9]).getD 0 default).bbox) := by
  have h := C9_bbox_within_bounds 1000 800 [(100, 120, 60, 40)] 1
    [heurDrawC9] 1 [simDrawC9] (by norm_num) (by norm_num) (by decide)
    (by decide)
  exact ⟨h.1 _ (by decide), h.2 _ (by decide)⟩

/-- C10: every defect emitted by the heuristic image detector has stored
raw confidence at least 0.93 (the draws lie in [0.93, 0.98], above the
0.88 severity cutoff) and severity `high`; hence a simulated-mode image
inspection built on this detector output is always `passed` or `failed`,
never `review` or `passed_with_notes`. -/
theorem C10_heuristic_image_status (W H : Int)
    (pot : List (Int × Int × Int × Int)) (n : Nat) (draws : List HeurDraw)
    (dm : String) (hc : Bool) (th : ℚ)
    (hWF : ∀ d ∈ draws, heurDrawWF W H d) :
    (∀ d ∈ analyzeImageForDefects W H pot n draws,
        93/100 ≤ d.confidence ∧ d.severity = Severity.high)
  ∧ ((inspect_file (analyzeImageForDefects W H pot n draws) dm
        FileType.image hc th).status = InspectionStatus.passed
      ∨ (inspect_file (analyzeImageForDefects W H pot n draws) dm
          FileType.image hc th).status = InspectionStatus.failed) := by
  have h1 : ∀ d ∈ analyzeImageForDefects W H pot n draws,
      93/100 ≤ d.confidence ∧ d.severity = Severity.high := by
    intro d hd
    simp only [analyzeImageForDefects, List.mem_map] at hd
    obtain ⟨p, hp, rfl⟩ := hd
    rcases p with ⟨i, dr⟩
    have hdrw : dr ∈ draws := (List.of_mem_zip hp).2
    obtain ⟨-, -, -, -, -, -, -, -, -, -, -, -, -, -, -, -, -, -, hc1, -,
      hc2, -⟩ := hWF dr hdrw
    rcases hbox : heuristicRawBox pot i dr with ⟨x, y, w, h⟩
    have hcf : 93/100 ≤ heurConfidence W H w h dr := by
      unfold heurConfidence
      split_ifs <;> linarith
    have hgt : heurConfidence W H w h dr > 88/100 := by linarith
    have h93 : ((93 : Int) : ℚ) / 100 ≤ heurConfidence W H w h dr := by
      push_cast
      linarith
    have hr := round2_ge (heurConfidence W H w h dr) 93 h93
    simp only [heuristicDefect, hbox]
    constructor
    · have he : (93 : ℚ)/100 = ((93 : Int) : ℚ) / 100 := by norm_num
      rw [he]
      exact hr
    · rw [if_pos (Or.inl hgt)]
  refine ⟨h1, ?_⟩
  have hfiltered : ∀ d ∈ (inspect_file (analyzeImageForDefects W H pot n
      draws) dm FileType.image hc th).defects,
      d.severity = Severity.high := by
    intro d hd
    simp only [inspect_file] at hd
    have hd1 := (List.mem_filter.mp hd).1
    simp only [List.mem_map] at hd1
    obtain ⟨d0, hd0, rfl⟩ := hd1
    exact (h1 d0 hd0).2
  exact deriveStatus_of_all_high _ hfiltered

/-- A reachable heuristic-detector environment on a 1000×1000 image used
to instantiate C10. -/
def heurDrawC10 : HeurDraw :=
  { jx := 0, jy := 0, jw := 0, jh := 0, rx := 400, ry := 400, rw := 90,
    rh := 90, tr := 50/100, c1 := 94/100, c2 := 97/100, did := "qc-d5" }

/-- Witness for C10 at a concrete one-defect environment. -/
theorem C10_heuristic_image_status_witness :
    (inspect_file (analyzeImageForDefects 1000 1000 [] 1 [heurDrawC10])
        "simulated" FileType.image true qc_confidence_threshold).status
      = InspectionStatus.passed
  ∨ (inspect_file (analyzeImageForDefects 1000 1000 [] 1 [heurDrawC10])
        "simulated" FileType.image true qc_confidence_threshold).status
      = InspectionStatus.failed :=
  (C10_heuristic_image_status 1000 1000 [] 1 [heurDrawC10] "simulated"
    true qc_confidence_threshold (by decide)).2

end QCInspector
